import Mathlib

/-!
Verification of the proxy group manager (`pg_manager.c`).

The definitions below are a shallow embedding of the C source: pure
fragments become Lean functions, the database and the configuration-cache
peer are modelled as explicit inputs (row lists, membership predicates,
commit-outcome sequences), and machine integers become `Int`/`Nat`.
Line numbers refer to `src/src/zabbix_server/pgmanager/pg_manager.c`.
-/

namespace PGM

/-- Proxy status constants `ZBX_PG_PROXY_STATUS_*` (declared in pg_cache.h;
the numeric values are irrelevant to the control flow). -/
inductive ProxyStatus
  | unknown
  | online
  | offline
  deriving DecidableEq, Repr

/-- Group status constants `ZBX_PG_GROUP_STATUS_*`. -/
inductive GroupStatus
  | unknown
  | online
  | offline
  | recovery
  | decay
  deriving DecidableEq, Repr

/-- `PGM_STATUS_CHECK_INTERVAL` (line 29). -/
def PGM_STATUS_CHECK_INTERVAL : Int := 5

/-- The per-proxy fields used by the status evaluator. -/
structure Proxy where
  lastaccess : Int
  firstaccess : Int
  status : ProxyStatus
  deriving DecidableEq, Repr

/-- Per-proxy status classification from `pgm_update_status`
(lines 251-280), including the debug override
`proxy->lastaccess = now` at line 254 (comment: "WDN: override proxy last
access for debugging").  `failover_delay` is the owning group's failover
delay.  Returns the updated proxy and whether the owning group was
enqueued for update (line 279). -/
def pgm_eval_proxy (now startup_time failover_delay : Int) (p0 : Proxy) : Proxy × ProxyStatus :=
  let p1 : Proxy := { p0 with lastaccess := now }
  if failover_delay ≤ now - p1.lastaccess then
    if failover_delay ≤ now - startup_time then
      ({ p1 with firstaccess := 0 }, ProxyStatus.offline)
    else
      (p1, ProxyStatus.unknown)
  else
    let p2 : Proxy := if p1.firstaccess = 0 then { p1 with firstaccess := p1.lastaccess } else p1
    if failover_delay ≤ now - p2.firstaccess then
      (p2, ProxyStatus.online)
    else
      (p2, ProxyStatus.unknown)

/-- Application of the computed status (lines 275-279): an `UNKNOWN`
computed status, or one equal to the current status, leaves the proxy
unchanged and enqueues nothing; otherwise the status is applied and the
owning group is enqueued. -/
def pgm_apply_proxy_status (now startup_time failover_delay : Int) (p0 : Proxy) : Proxy × Bool :=
  let r := pgm_eval_proxy now startup_time failover_delay p0
  if r.2 = ProxyStatus.unknown ∨ r.1.status = r.2 then
    (r.1, false)
  else
    ({ r.1 with status := r.2 }, true)

/-- The per-group fields used by the status evaluator. -/
structure Group where
  min_online : Int
  failover_delay : Int
  status : GroupStatus
  status_time : Int
  flags : Nat
  deriving DecidableEq, Repr

/-- Group status transition switch from `pgm_update_status`
(lines 301-333).  `proxies_num` is `group->proxies.values_num`.  The
`UNKNOWN` case assigns `ONLINE` and falls through to the `ONLINE` case
(line 307).  In the `RECOVERY` case the source assigns
`ZBX_PG_GROUP_STATUS_RECOVERY` at line 324. -/
def pgm_group_next_status (now : Int) (g : Group) (proxies_num online healthy : Int) : GroupStatus :=
  match g.status with
  | GroupStatus.unknown =>
      if g.min_online > healthy then GroupStatus.decay else GroupStatus.online
  | GroupStatus.online =>
      if g.min_online > healthy then GroupStatus.decay else GroupStatus.online
  | GroupStatus.offline =>
      if g.min_online ≤ online then GroupStatus.recovery else GroupStatus.offline
  | GroupStatus.recovery =>
      if g.min_online > healthy then GroupStatus.decay
      else if now - g.status_time > g.failover_delay ∨ proxies_num = online then
        GroupStatus.recovery
      else GroupStatus.recovery
  | GroupStatus.decay =>
      if g.min_online ≤ healthy then GroupStatus.online
      else if g.min_online > online then GroupStatus.offline
      else GroupStatus.decay

/-- The online/healthy counting loop from `pgm_update_status`
(lines 282-299).  `gi` is the OUTER loop index `i` over
`cache->group_updates`; the source indexes `group->proxies.values[i]`
with it inside the inner loop over `j` (lines 289 and 293).  The inner
loop runs once per element of the group's proxy vector. -/
def pgm_count_online_healthy (now failover_delay : Int) (gi : Nat) (proxies : List Proxy) :
    Int × Int :=
  (List.range proxies.length).foldl
    (fun acc _j =>
      match proxies[gi]? with
      | some p =>
          if p.status = ProxyStatus.online then
            (acc.1 + 1,
             if now - p.lastaccess + PGM_STATUS_CHECK_INTERVAL < failover_delay then acc.2 + 1
             else acc.2)
          else acc
      | none => acc)
    (0, 0)

/-- Modelled from the spec: the group `flags` bitset has two named bits,
`UPDATE_STATUS` and `UPDATE_HP_MAP` (spec §3 "Data Model"); the numeric
values live in pg_cache.h, which is not part of the tree, so they are
modelled as distinct single bits. -/
def ZBX_PG_GROUP_UPDATE_STATUS : Nat := 1

/-- Modelled from the spec: the `UPDATE_HP_MAP` bit of the group `flags`
bitset (spec §3); modelled as a bit distinct from `UPDATE_STATUS`. -/
def ZBX_PG_GROUP_UPDATE_HP_MAP : Nat := 2

/-- Group status-change bookkeeping from `pgm_update_status`
(lines 335-340): when the computed status differs from the current one
the source assigns `group->status = status`, `group->status_time = now`
and `group->flags = ZBX_PG_GROUP_UPDATE_STATUS` (a plain assignment). -/
def pgm_apply_group_status (now : Int) (g : Group) (status : GroupStatus) : Group :=
  if status ≠ g.status then
    { g with status := status, status_time := now, flags := ZBX_PG_GROUP_UPDATE_STATUS }
  else g

/-- A row of the bootstrap proxy query in `pgm_db_get_proxies`
(lines 127-130): the proxy's persisted `lastaccess` and its group's
`failover_delay`. -/
structure BootRow where
  lastaccess : Int
  failover_delay : Int
  deriving DecidableEq, Repr

/-- A proxy as produced by the bootstrap loader. -/
structure BootProxy where
  firstaccess : Int
  status : ProxyStatus
  failover_delay : Int
  deriving DecidableEq, Repr

/-- Bootstrap proxy load and classification from `pgm_db_get_proxies`
(lines 120-172).  The row loop stows `lastaccess` in `firstaccess`
(line 147) and raises `firstaccess` to `clock` when it is smaller
(lines 149-150); `clock` is initialised to 0 at line 124 and never
assigned afterwards.  The classification loop (lines 160-171) compares
`clock - firstaccess` with the group's failover delay, clears
`firstaccess`, and finally forces `ONLINE` (line 170, comment
"WDN: force online status"). -/
def pgm_db_get_proxies (rows : List BootRow) : List BootProxy :=
  let clock : Int := 0
  let loaded : List BootProxy := rows.map (fun r =>
    let fa := r.lastaccess
    let fa := if fa < clock then clock else fa
    { firstaccess := fa, status := ProxyStatus.unknown, failover_delay := r.failover_delay })
  loaded.map (fun p =>
    let p :=
      if clock - p.firstaccess ≥ p.failover_delay then { p with status := ProxyStatus.offline }
      else { p with status := ProxyStatus.online }
    let p := { p with firstaccess := 0 }
    { p with status := ProxyStatus.online })

/-- The two update phases that the cadence gate guards. -/
inductive TickAction
  | syncGroups
  | evalStatus
  deriving DecidableEq, Repr

/-- Cadence gate of the main loop `pg_manager_thread` (lines 820-829):
the guard is `PGM_STATUS_CHECK_INTERVAL >= time_update - time_now`; when
it holds the loop runs `pgm_update_groups` then `pgm_update_status` and
sets `time_update = time_now`.  Times (doubles in the source) are
modelled as integers; the comparison direction does not depend on the
representation. -/
def pgm_tick_actions (time_update time_now : Int) : List TickAction :=
  if PGM_STATUS_CHECK_INTERVAL ≥ time_update - time_now then
    [TickAction.syncGroups, TickAction.evalStatus]
  else []

/-- Row-scanning loop of `pgm_get_proxy_names` (lines 669-684).  `ids` is
the sorted deduplicated proxy-id list (the remaining part, the cursor `i`
being the consumed prefix); `rows` are the rows the query returned, in
`order by proxyid` (the query selects only ids from the list).  For each
returned row the inner loop appends a null name for every id skipped
before the row's id (lines 675-680, null modelled as `none`), then the
row's name is appended (line 682); the loop stops when the rows or the
ids run out. -/
def pgm_names_scan : List Nat → List (Nat × String) → List (Option String)
  | _, [] => []
  | [], _ :: _ => []
  | pid :: ids, (rid, nm) :: rows =>
      if pid = rid then some nm :: pgm_names_scan ids rows
      else none :: pgm_names_scan ids ((rid, nm) :: rows)

/-- `pgm_get_proxy_names` (lines 654-687): a single query fetches
`proxyid,name` for the listed ids ordered by proxyid (`rows`), and the
result rows are aligned against the id list. -/
def pgm_get_proxy_names (proxyids : List Nat) (rows : List (Nat × String)) :
    List (Option String) :=
  pgm_names_scan proxyids rows

/-- A pending `host_proxy` insert record (`zbx_pg_host_t`). -/
structure PgHost where
  hostid : Nat
  proxyid : Nat
  revision : Nat
  deriving DecidableEq, Repr

/-- `pgm_db_get_recids_for_update` (lines 425-451): sorts and deduplicates
the ids, selects the existing ones with `FOR UPDATE`, and returns the
locked-id index.  `dbHas` models which ids exist in the table. -/
def pgm_db_get_recids_for_update (ids : List Nat) (dbHas : Nat → Bool) : List Nat :=
  ((ids.mergeSort (fun a b => a ≤ b)).dedup).filter dbHas

/-- `pgm_db_flush_host_proxy_insert_batch` (lines 458-503): collects the
batch's hostids and proxyids, locks and indexes the ones that exist
(lines 475-476), and inserts every row of the batch whose hostid and
proxyid were both found (lines 482-492).  Returns the inserted rows. -/
def pgm_db_flush_host_proxy_insert_batch (hostHas proxyHas : Nat → Bool)
    (hosts : List PgHost) : List PgHost :=
  let host_index := pgm_db_get_recids_for_update (hosts.map (fun h => h.hostid)) hostHas
  let proxy_index := pgm_db_get_recids_for_update (hosts.map (fun h => h.proxyid)) proxyHas
  hosts.filter (fun h => host_index.contains h.hostid && proxy_index.contains h.proxyid)

/-- `PGM_INSERT_BATCH_SIZE` (line 512). -/
def PGM_INSERT_BATCH_SIZE : Nat := 1000

/-- The batch split loop of `pgm_db_flush_host_proxy_inserts`
(lines 517-525): consecutive slices of at most `PGM_INSERT_BATCH_SIZE`
records. -/
def pgm_insert_batches (hosts : List PgHost) : List (List PgHost) :=
  if h : hosts = [] then []
  else hosts.take PGM_INSERT_BATCH_SIZE :: pgm_insert_batches (hosts.drop PGM_INSERT_BATCH_SIZE)
termination_by hosts.length
decreasing_by
  have hpos : 0 < hosts.length := List.length_pos.mpr h
  simp only [List.length_drop, PGM_INSERT_BATCH_SIZE]
  omega

/-- `pgm_db_flush_host_proxy_inserts` (lines 510-532): processes the new
mappings in consecutive batches; the function's own prepared insert
(lines 513-515, 527-529) stays empty, executes no rows and is not
modelled.  Returns all inserted rows in order. -/
def pgm_db_flush_host_proxy_inserts (hostHas proxyHas : Nat → Bool)
    (hosts : List PgHost) : List PgHost :=
  ((pgm_insert_batches hosts).map (pgm_db_flush_host_proxy_insert_batch hostHas proxyHas)).flatten

/-- Modelled from the spec: database commit outcomes (spec §7 "Error
kinds"): `ok` — success (`ZBX_DB_OK <= ret`), `down` — DB_TRANSIENT
(commit reports database down, `ZBX_DB_DOWN`), `fail` — DB_PERMANENT.
The numeric `ZBX_DB_*` codes live in zbxdbhigh.h, which is not part of
the tree. -/
inductive DbRet
  | ok
  | down
  | fail
  deriving DecidableEq, Repr

/-- An entry of the drained group-update snapshot (`zbx_pg_update_t`). -/
structure PgUpdate where
  proxy_groupid : Nat
  flags : Nat
  deriving DecidableEq, Repr

/-- `pgm_dc_flush_host_proxy_revision` (lines 569-584): collects the ids
of the groups whose flags carry `UPDATE_HP_MAP` (lines 575-579) and
publishes the revision to the configuration cache for exactly them. -/
def pgm_dc_flush_host_proxy_revision (groups : List PgUpdate) : List Nat :=
  groups.foldl
    (fun acc g =>
      if g.flags &&& ZBX_PG_GROUP_UPDATE_HP_MAP ≠ 0 then acc ++ [g.proxy_groupid] else acc)
    []

/-- Commit retry loop of `pgm_flush_updates` (lines 612-634): `outcomes`
models the result of each successive `zbx_db_commit`; the transaction
body is re-executed while the commit returns `down`
(`while (ZBX_DB_DOWN == (ret = zbx_db_commit()))`).  Returns the number
of body executions and the final commit result, or `none` when every
supplied outcome is `down` (the source would keep retrying). -/
def pgm_commit_loop : List DbRet → Option (Nat × DbRet)
  | [] => none
  | r :: rs =>
      if r = DbRet.down then (pgm_commit_loop rs).map (fun p => (p.1 + 1, p.2))
      else some (1, r)

/-- Transaction tail of `pgm_flush_updates` (lines 612-637): run the
retry loop; on success (`ZBX_DB_OK <= ret`, line 636) publish the
revision for the `UPDATE_HP_MAP` groups, otherwise publish nothing.
Returns the number of body executions and the published group ids
(`none` when nothing was published). -/
def pgm_flush_updates (groups : List PgUpdate) (outcomes : List DbRet) :
    Option (Nat × Option (List Nat)) :=
  (pgm_commit_loop outcomes).map (fun p =>
    (p.1, if p.2 = DbRet.ok then some (pgm_dc_flush_host_proxy_revision groups) else none))

/-- A relocation event (`zbx_objmove_t`). -/
structure RelocEvent where
  objid : Nat
  srcid : Nat
  dstid : Nat
  deriving DecidableEq, Repr

/-- The cache operations invoked by `pgm_update_proxies` (lines 722-764).
They are implemented in pg_cache.c, which is not part of the tree, so the
relocation step is stated over an arbitrary implementation: `σ` is the
cache state, `π` the proxy handle type. -/
structure CacheOps (σ π : Type) where
  search_group : σ → Nat → Bool
  group_remove_proxy : σ → Nat → Nat → σ × Option π
  queue_group_update : σ → Nat → σ
  group_add_proxy : σ → Nat → Nat → Option String → σ
  group_attach_proxy : σ → Nat → π → σ
  proxy_free : σ → π → σ

/-- The id-collection loop of `pgm_update_proxies` (lines 699-708):
events with `dstid == 0` are skipped (line 703), as are ids of proxies
already in the cache (line 706). -/
def pgm_collect_reloc_proxyids (inCache : Nat → Bool) (evs : List RelocEvent) : List Nat :=
  evs.foldl
    (fun acc ev =>
      if ev.dstid = 0 then acc
      else if inCache ev.objid then acc
      else acc ++ [ev.objid])
    []

/-- The per-event relocation step of `pgm_update_proxies`
(lines 722-764): a non-zero `srcid` removes the proxy from the source
group and enqueues it; a non-zero `dstid` reattaches the removed proxy
or creates a new one with the fetched name, and enqueues the destination
group; a zero `dstid` frees the removed proxy, if any. -/
def pgm_process_reloc {σ π : Type} (ops : CacheOps σ π) (nameOf : Nat → Option String)
    (st : σ) (ev : RelocEvent) : σ :=
  let sp : σ × Option π :=
    if ev.srcid ≠ 0 then
      if ops.search_group st ev.srcid then
        let rp := ops.group_remove_proxy st ev.srcid ev.objid
        (ops.queue_group_update rp.1 ev.srcid, rp.2)
      else (st, none)
    else (st, none)
  if ev.dstid ≠ 0 then
    if ops.search_group sp.1 ev.dstid then
      let st2 :=
        match sp.2 with
        | none => ops.group_add_proxy sp.1 ev.dstid ev.objid (nameOf ev.objid)
        | some p => ops.group_attach_proxy sp.1 ev.dstid p
      ops.queue_group_update st2 ev.dstid
    else sp.1
  else
    match sp.2 with
    | some p => ops.proxy_free sp.1 p
    | none => sp.1

/-- Claim C1: per-proxy status classification — a proxy whose heartbeat is
absent for at least the failover delay, with the startup grace window
over, should be set OFFLINE with `firstaccess` reset and its group
enqueued.  Evaluating the code at such a proxy (lastaccess 0, now 1000,
startup 0, failover delay 60): the debug override at line 254 rewrites
`lastaccess` to `now`, so the computed status is UNKNOWN, the proxy stays
ONLINE, `firstaccess` becomes 1000 instead of 0, and no group is
enqueued. -/
theorem pgm_eval_proxy_wdn_override_blocks_offline :
    (1000 : Int) - 0 ≥ 60 ∧ (1000 : Int) - 0 ≥ 60 ∧
    pgm_apply_proxy_status 1000 0 60 { lastaccess := 0, firstaccess := 0, status := ProxyStatus.online }
      = ({ lastaccess := 1000, firstaccess := 1000, status := ProxyStatus.online }, false) := by
  decide

/-- Claim C2: RECOVERY-to-ONLINE — a RECOVERY group with
`min_online ≤ healthy` and `now − status_time > failover_delay` should
transition to ONLINE.  Evaluating the code at such a group
(min_online 1, healthy 2, online 2 of 3 proxies, status_time 0, now 100,
failover delay 60): line 324 assigns RECOVERY, so the status stays
RECOVERY and never becomes ONLINE. -/
theorem pgm_group_recovery_stays_recovery :
    (1 : Int) ≤ 2 ∧ (100 : Int) - 0 > 60 ∧
    pgm_group_next_status 100
        { min_online := 1, failover_delay := 60, status := GroupStatus.recovery,
          status_time := 0, flags := 0 } 3 2 2
      = GroupStatus.recovery := by
  decide

/-- Claim C3: per-group counting — `online` should count the group's own
proxies with status ONLINE, iterating the group's proxy vector.
Evaluating the code for the group at outer index 0 whose proxy vector is
[OFFLINE, ONLINE]: the loop indexes `values[i]` with the outer index, so
it inspects the first proxy twice and reports `online = 0` although one
member is ONLINE (and fresh, so `healthy` should be 1 as well). -/
theorem pgm_count_outer_index_miscounts :
    pgm_count_online_healthy 100 60 0
        [{ lastaccess := 100, firstaccess := 0, status := ProxyStatus.offline },
         { lastaccess := 100, firstaccess := 0, status := ProxyStatus.online }]
      = (0, 0) ∧
    List.countP (fun (p : Proxy) => decide (p.status = ProxyStatus.online))
        [{ lastaccess := 100, firstaccess := 0, status := ProxyStatus.offline },
         { lastaccess := 100, firstaccess := 0, status := ProxyStatus.online }]
      = 1 := by
  decide

/-- Claim C4: bootstrap proxy classification — with the reference clock
equal to the maximum stowed lastaccess (1000), a proxy last seen 600
seconds earlier (400) with failover delay 60 should end OFFLINE.
Evaluating the code on those two rows: `clock` stays 0 (it is never
raised, lines 149-150) and line 170 forces ONLINE, so both proxies end
ONLINE. -/
theorem pgm_db_get_proxies_all_online :
    (1000 : Int) - 400 ≥ 60 ∧
    (pgm_db_get_proxies
        [{ lastaccess := 1000, failover_delay := 60 },
         { lastaccess := 400, failover_delay := 60 }]).map (fun p => p.status)
      = [ProxyStatus.online, ProxyStatus.online] := by
  decide

/-- Claim C5: control-loop cadence — group sync and status evaluation
should run only when at least `PGM_STATUS_CHECK_INTERVAL` seconds have
elapsed since the last update.  Evaluating the gate with
`time_update = 100`, `time_now = 101` (1 second elapsed): the guard
`PGM_STATUS_CHECK_INTERVAL >= time_update - time_now` (line 822) holds,
so both phases run although the elapsed time is below the interval. -/
theorem pgm_tick_runs_before_interval :
    pgm_tick_actions 100 101 = [TickAction.syncGroups, TickAction.evalStatus] ∧
    ¬ ((101 : Int) - 100 ≥ PGM_STATUS_CHECK_INTERVAL) := by
  decide

/-- Claim C6 (counterexample): a group carrying the `UPDATE_HP_MAP` flag
whose status changes loses that flag, because line 339 overwrites
`flags` with `ZBX_PG_GROUP_UPDATE_STATUS` instead of or-ing it in. -/
theorem pgm_apply_group_status_clears_hpmap :
    ({ min_online := 1, failover_delay := 60, status := GroupStatus.online,
       status_time := 0, flags := ZBX_PG_GROUP_UPDATE_HP_MAP } : Group).flags
        &&& ZBX_PG_GROUP_UPDATE_HP_MAP ≠ 0 ∧
    (pgm_apply_group_status 100
        { min_online := 1, failover_delay := 60, status := GroupStatus.online,
          status_time := 0, flags := ZBX_PG_GROUP_UPDATE_HP_MAP }
        GroupStatus.decay).flags &&& ZBX_PG_GROUP_UPDATE_HP_MAP = 0 := by
  decide

/-- Claim C6 (amended): for every evaluated group, `status_time` is set to
`now` iff the computed status differs from the current one, and on such a
change `flags` is overwritten to hold exactly the `UPDATE_STATUS` bit —
a previously set `UPDATE_HP_MAP` bit is cleared; when the status does not
change, the group is left unchanged. -/
theorem pgm_apply_group_status_bookkeeping (now : Int) (g : Group) (status : GroupStatus) :
    (status ≠ g.status →
        (pgm_apply_group_status now g status).status = status ∧
        (pgm_apply_group_status now g status).status_time = now ∧
        (pgm_apply_group_status now g status).flags = ZBX_PG_GROUP_UPDATE_STATUS ∧
        (pgm_apply_group_status now g status).flags &&& ZBX_PG_GROUP_UPDATE_HP_MAP = 0) ∧
    (status = g.status → pgm_apply_group_status now g status = g) := by
  constructor <;> intro h
  · simp [pgm_apply_group_status, h, ZBX_PG_GROUP_UPDATE_STATUS, ZBX_PG_GROUP_UPDATE_HP_MAP]
  · simp [pgm_apply_group_status, h]

/-- Claim C7 (counterexample): with id list [5, 7] and the query returning
only the row (5, "a"), `pgm_get_proxy_names` produces a single entry, not
one entry per id: the trailing id 7, which the query did not return, gets
no entry at all. -/
theorem pgm_get_proxy_names_not_one_per_id :
    pgm_get_proxy_names [5, 7] [(5, "a")] = [some "a"] ∧
    (pgm_get_proxy_names [5, 7] [(5, "a")]).length ≠ ([5, 7] : List Nat).length := by
  constructor
  · rfl
  · decide

/-- Claim C7 (amended): for every sorted deduplicated id list and every
row set the query returns (the returned ids form a subsequence of the id
list), the names list is order-aligned one entry per id with a PREFIX of
the id list that contains every id the query returned: an id in that
prefix gets its fetched name when the query returned it and a null name
otherwise, and ids after the last returned row get no entry. -/
theorem pgm_get_proxy_names_aligned (ids : List Nat) (rows : List (Nat × String))
    (hsub : List.Sublist (rows.map Prod.fst) ids) (hnd : ids.Nodup) :
    ∃ k, k ≤ ids.length ∧
      pgm_get_proxy_names ids rows
        = (ids.take k).map (fun i => (rows.find? (fun r => r.1 == i)).map Prod.snd) ∧
      ∀ r ∈ rows, r.1 ∈ ids.take k := by
  induction ids generalizing rows with
  | nil =>
      have hrows : rows = [] := List.map_eq_nil_iff.mp (List.sublist_nil.mp hsub)
      subst hrows
      exact ⟨0, by simp [pgm_get_proxy_names, pgm_names_scan]⟩
  | cons pid ids ih =>
      have hpid : pid ∉ ids := (List.nodup_cons.mp hnd).1
      have hndt : ids.Nodup := (List.nodup_cons.mp hnd).2
      match rows with
      | [] => exact ⟨0, by simp [pgm_get_proxy_names, pgm_names_scan]⟩
      | (rid, nm) :: rs =>
        by_cases hpr : pid = rid
        · subst hpr
          have hsub2 : List.Sublist (rs.map Prod.fst) ids := by
            have h0 : List.Sublist (pid :: rs.map Prod.fst) (pid :: ids) := hsub
            exact List.cons_sublist_cons.mp h0
          obtain ⟨k, hk, heq, hmem⟩ := ih rs hsub2 hndt
          refine ⟨k + 1, by simpa using Nat.succ_le_succ hk, ?_, ?_⟩
          · have hhead :
                ((((pid, nm) :: rs).find? (fun r => r.1 == pid)).map Prod.snd) = some nm := by
              simp [List.find?]
            have htail :
                (ids.take k).map
                    (fun i => (((pid, nm) :: rs).find? (fun r => r.1 == i)).map Prod.snd)
                  = (ids.take k).map (fun i => (rs.find? (fun r => r.1 == i)).map Prod.snd) := by
              apply List.map_congr_left
              intro i hi
              have hne : pid ≠ i := fun hcontra => hpid (hcontra ▸ List.mem_of_mem_take hi)
              have hbeq : (pid == i) = false := beq_eq_false_iff_ne.mpr hne
              simp [List.find?, hbeq]
            show pgm_names_scan (pid :: ids) ((pid, nm) :: rs) = _
            simp only [pgm_names_scan, if_pos rfl, List.take_succ_cons, List.map_cons,
              hhead, htail]
            exact congrArg (some nm :: ·) (heq.trans rfl)
          · intro r hr
            rcases List.mem_cons.mp hr with hr1 | hr2
            · subst hr1; simp [List.take_succ_cons]
            · simp only [List.take_succ_cons, List.mem_cons]
              exact Or.inr (hmem r hr2)
        · have hsub2 : List.Sublist (rid :: rs.map Prod.fst) ids := by
            have h0 : List.Sublist (rid :: rs.map Prod.fst) (pid :: ids) := hsub
            cases h0 with
            | cons _ h => exact h
            | cons₂ _ h => exact absurd rfl hpr
          obtain ⟨k, hk, heq, hmem⟩ := ih ((rid, nm) :: rs) hsub2 hndt
          refine ⟨k + 1, by simpa using Nat.succ_le_succ hk, ?_, ?_⟩
          · have hhead :
                ((((rid, nm) :: rs).find? (fun r => r.1 == pid)).map Prod.snd) = none := by
              have hnone : ((rid, nm) :: rs).find? (fun r => r.1 == pid) = none := by
                apply List.find?_eq_none.mpr
                intro x hx
                have hx1 : x.1 ∈ ((rid, nm) :: rs).map Prod.fst := List.mem_map_of_mem Prod.fst hx
                have hx2 : x.1 ∈ ids := hsub2.subset hx1
                simp only [beq_iff_eq]
                exact fun hcontra => hpid (hcontra ▸ hx2)
              simp [hnone]
            show pgm_names_scan (pid :: ids) ((rid, nm) :: rs) = _
            simp only [pgm_names_scan, if_neg hpr, List.take_succ_cons, List.map_cons, hhead]
            exact congrArg (none :: ·) heq
          · intro r hr
            simp only [List.take_succ_cons, List.mem_cons]
            exact Or.inr (hmem r hr)

/-- Witness for the amended claim C7 at the counterexample's input:
ids [5, 7], returned rows [(5, "a")]. -/
theorem pgm_get_proxy_names_aligned_witness :
    ∃ k, k ≤ ([5, 7] : List Nat).length ∧
      pgm_get_proxy_names [5, 7] [(5, "a")]
        = (([5, 7] : List Nat).take k).map
            (fun i => (([(5, "a")] : List (Nat × String)).find? (fun r => r.1 == i)).map Prod.snd) ∧
      ∀ r ∈ ([(5, "a")] : List (Nat × String)), r.1 ∈ ([5, 7] : List Nat).take k :=
  pgm_get_proxy_names_aligned [5, 7] [(5, "a")] (by decide) (by decide)

/-- Witness for the amended claim C6 at a concrete changing group. -/
theorem pgm_apply_group_status_bookkeeping_witness :
    (pgm_apply_group_status 100
        { min_online := 1, failover_delay := 60, status := GroupStatus.online,
          status_time := 0, flags := ZBX_PG_GROUP_UPDATE_HP_MAP }
        GroupStatus.decay).flags = ZBX_PG_GROUP_UPDATE_STATUS :=
  ((pgm_apply_group_status_bookkeeping 100
      { min_online := 1, failover_delay := 60, status := GroupStatus.online,
        status_time := 0, flags := ZBX_PG_GROUP_UPDATE_HP_MAP }
      GroupStatus.decay).1 (by decide)).2.2.1

/-- The locked-id index built by `pgm_db_get_recids_for_update` holds
exactly the listed ids that exist in the table. -/
theorem mem_pgm_db_get_recids (ids : List Nat) (dbHas : Nat → Bool) (x : Nat) :
    x ∈ pgm_db_get_recids_for_update ids dbHas ↔ x ∈ ids ∧ dbHas x = true := by
  unfold pgm_db_get_recids_for_update
  rw [List.mem_filter, List.mem_dedup, (List.mergeSort_perm ids _).mem_iff]

/-- Each insert batch keeps exactly the rows whose host and proxy exist. -/
theorem pgm_insert_batch_eq_filter (hostHas proxyHas : Nat → Bool) (hosts : List PgHost) :
    pgm_db_flush_host_proxy_insert_batch hostHas proxyHas hosts
      = hosts.filter (fun h => hostHas h.hostid && proxyHas h.proxyid) := by
  unfold pgm_db_flush_host_proxy_insert_batch
  apply List.filter_congr
  intro h hh
  have hcontains : ∀ (f : PgHost → Nat) (dbHas : Nat → Bool),
      (pgm_db_get_recids_for_update (hosts.map f) dbHas).contains (f h) = dbHas (f h) := by
    intro f dbHas
    by_cases hb : dbHas (f h) = true
    · have hin : f h ∈ pgm_db_get_recids_for_update (hosts.map f) dbHas :=
        (mem_pgm_db_get_recids _ _ _).mpr ⟨List.mem_map_of_mem f hh, hb⟩
      simp [List.contains, List.elem_eq_mem, hin, hb]
    · have hout : f h ∉ pgm_db_get_recids_for_update (hosts.map f) dbHas := fun hmem =>
        hb ((mem_pgm_db_get_recids _ _ _).mp hmem).2
      simp [List.contains, List.elem_eq_mem, hout, (Bool.not_eq_true _).mp hb]
  rw [hcontains (fun h2 => h2.hostid) hostHas, hcontains (fun h2 => h2.proxyid) proxyHas]

/-- The batch slices join back to the original record list. -/
theorem pgm_insert_batches_flatten (hosts : List PgHost) :
    (pgm_insert_batches hosts).flatten = hosts := by
  induction hosts using pgm_insert_batches.induct with
  | case1 => rw [pgm_insert_batches]; simp
  | case2 hosts h ih => rw [pgm_insert_batches]; simp [h, ih]

/-- Every batch slice holds at most `PGM_INSERT_BATCH_SIZE` records. -/
theorem pgm_insert_batches_size (hosts : List PgHost) :
    ∀ b ∈ pgm_insert_batches hosts, b.length ≤ PGM_INSERT_BATCH_SIZE := by
  induction hosts using pgm_insert_batches.induct with
  | case1 => rw [pgm_insert_batches]; simp
  | case2 hosts h ih =>
      rw [pgm_insert_batches]
      simp only [h, dite_false, List.mem_cons]
      intro b hb
      rcases hb with hb | hb
      · subst hb
        calc (hosts.take PGM_INSERT_BATCH_SIZE).length
            = min PGM_INSERT_BATCH_SIZE hosts.length := List.length_take _ _
          _ ≤ PGM_INSERT_BATCH_SIZE := Nat.min_le_left _ _
      · exact ih b hb

/-- The insert flush inserts exactly the rows whose host and proxy exist,
independently of the batching. -/
theorem pgm_inserts_eq_filter (hostHas proxyHas : Nat → Bool) (hosts : List PgHost) :
    pgm_db_flush_host_proxy_inserts hostHas proxyHas hosts
      = hosts.filter (fun h => hostHas h.hostid && proxyHas h.proxyid) := by
  unfold pgm_db_flush_host_proxy_inserts
  calc ((pgm_insert_batches hosts).map
          (pgm_db_flush_host_proxy_insert_batch hostHas proxyHas)).flatten
      = ((pgm_insert_batches hosts).map
          (List.filter (fun h => hostHas h.hostid && proxyHas h.proxyid))).flatten := by
        rw [List.map_congr_left (fun b _ => pgm_insert_batch_eq_filter hostHas proxyHas b)]
    _ = ((pgm_insert_batches hosts).flatten).filter
          (fun h => hostHas h.hostid && proxyHas h.proxyid) :=
        (List.filter_flatten _ _).symm
    _ = hosts.filter (fun h => hostHas h.hostid && proxyHas h.proxyid) := by
        rw [pgm_insert_batches_flatten]

/-- Claim C8: insert batching correctness — the flush splits the new
mappings into consecutive batches of at most 1000 (the slices join back
to the input), each batch checks its referenced hostids and proxyids
against the locked index and skips exactly the rows whose host or proxy
no longer exists, and when all referenced hosts and proxies exist the
number of inserted rows equals the number of input rows, regardless of N
crossing the batch boundary. -/
theorem pgm_insert_batching_correct (hostHas proxyHas : Nat → Bool) (hosts : List PgHost) :
    (∀ b ∈ pgm_insert_batches hosts, b.length ≤ PGM_INSERT_BATCH_SIZE) ∧
    (pgm_insert_batches hosts).flatten = hosts ∧
    pgm_db_flush_host_proxy_inserts hostHas proxyHas hosts
      = hosts.filter (fun h => hostHas h.hostid && proxyHas h.proxyid) ∧
    ((∀ h ∈ hosts, hostHas h.hostid = true ∧ proxyHas h.proxyid = true) →
        (pgm_db_flush_host_proxy_inserts hostHas proxyHas hosts).length = hosts.length) := by
  refine ⟨pgm_insert_batches_size hosts, pgm_insert_batches_flatten hosts,
    pgm_inserts_eq_filter hostHas proxyHas hosts, ?_⟩
  intro hall
  rw [pgm_inserts_eq_filter hostHas proxyHas hosts]
  rw [List.filter_eq_self.mpr]
  intro h hh
  simp [(hall h hh).1, (hall h hh).2]

/-- Witness for claim C8 at a batch-boundary-crossing input: 1001 new
mappings, all referenced hosts and proxies existing. -/
theorem pgm_insert_batching_correct_witness :
    (pgm_db_flush_host_proxy_inserts (fun _ => true) (fun _ => true)
        ((List.range 1001).map (fun n => { hostid := n, proxyid := n, revision := 0 }))).length
      = ((List.range 1001).map
          (fun n => ({ hostid := n, proxyid := n, revision := 0 } : PgHost))).length :=
  (pgm_insert_batching_correct (fun _ => true) (fun _ => true)
      ((List.range 1001).map (fun n => { hostid := n, proxyid := n, revision := 0 }))).2.2.2
    (fun h _ => ⟨rfl, rfl⟩)

/-- The group-id collection of `pgm_dc_flush_host_proxy_revision` equals
the ids of the groups carrying the `UPDATE_HP_MAP` flag, in order. -/
theorem pgm_dc_rev_foldl (groups : List PgUpdate) (acc : List Nat) :
    groups.foldl
        (fun acc g =>
          if g.flags &&& ZBX_PG_GROUP_UPDATE_HP_MAP ≠ 0 then acc ++ [g.proxy_groupid] else acc)
        acc
      = acc ++ (groups.filter
          (fun g => decide (g.flags &&& ZBX_PG_GROUP_UPDATE_HP_MAP ≠ 0))).map
            (fun g => g.proxy_groupid) := by
  induction groups generalizing acc with
  | nil => simp
  | cons g gs ih =>
      simp only [List.foldl_cons, List.filter_cons]
      by_cases hg : g.flags &&& ZBX_PG_GROUP_UPDATE_HP_MAP ≠ 0
      · rw [if_pos hg, ih]
        simp [hg]
      · rw [if_neg hg, ih]
        simp [hg]

/-- The commit retry loop executes the body once per transient-down
outcome and once for the first outcome that is not transient-down,
returning that outcome. -/
theorem pgm_commit_loop_spec (pre rest : List DbRet) (r : DbRet) (hr : r ≠ DbRet.down)
    (hpre : ∀ x ∈ pre, x = DbRet.down) :
    pgm_commit_loop (pre ++ r :: rest) = some (pre.length + 1, r) := by
  induction pre with
  | nil => simp [pgm_commit_loop, hr]
  | cons x xs ih =>
      have hx : x = DbRet.down := hpre x (List.mem_cons_self x xs)
      subst hx
      have ihh := ih (fun y hy => hpre y (List.mem_cons_of_mem _ hy))
      simp [pgm_commit_loop, ihh]

/-- Claim C9: persister commit retry and publication — for every drained
snapshot, the transaction body is re-executed once per commit attempt
that reports the database transiently down, and the new revision is
published to the configuration-cache peer iff the final commit succeeds,
for exactly the drained group ids carrying the `UPDATE_HP_MAP` flag. -/
theorem pgm_flush_retry_and_publication (groups : List PgUpdate) (pre rest : List DbRet)
    (r : DbRet) (hr : r ≠ DbRet.down) (hpre : ∀ x ∈ pre, x = DbRet.down) :
    pgm_flush_updates groups (pre ++ r :: rest)
      = some (pre.length + 1,
          if r = DbRet.ok then
            some ((groups.filter
                (fun g => decide (g.flags &&& ZBX_PG_GROUP_UPDATE_HP_MAP ≠ 0))).map
              (fun g => g.proxy_groupid))
          else none) := by
  unfold pgm_flush_updates pgm_dc_flush_host_proxy_revision
  rw [pgm_commit_loop_spec pre rest r hr hpre, pgm_dc_rev_foldl groups []]
  simp

/-- Witness for claim C9: two transient-down commits followed by a
successful one; the body runs three times and the revision is published
for the single `UPDATE_HP_MAP` group. -/
theorem pgm_flush_retry_and_publication_witness :
    pgm_flush_updates
        [{ proxy_groupid := 7, flags := 2 }, { proxy_groupid := 8, flags := 1 }]
        [DbRet.down, DbRet.down, DbRet.ok]
      = some (3, some [7]) :=
  (pgm_flush_retry_and_publication
      [{ proxy_groupid := 7, flags := 2 }, { proxy_groupid := 8, flags := 1 }]
      [DbRet.down, DbRet.down] [] DbRet.ok (by decide) (by decide)).trans (by decide)

/-- Claim C10: a relocation event with `srcid = 0` and `dstid = 0` is a
no-op on the cache: whatever the cache-operation implementations do, the
relocation step returns the state unchanged (so no proxy is created,
removed or freed, no mapping is touched and no group is enqueued), and
the id-collection pass gathers nothing from such an event. -/
theorem pgm_reloc_null_event_noop {σ π : Type} (ops : CacheOps σ π)
    (nameOf : Nat → Option String) (inCache : Nat → Bool) (st : σ) (objid : Nat) :
    pgm_process_reloc ops nameOf st { objid := objid, srcid := 0, dstid := 0 } = st ∧
    pgm_collect_reloc_proxyids inCache [{ objid := objid, srcid := 0, dstid := 0 }] = [] :=
  ⟨rfl, rfl⟩

end PGM
